import Mathlib

/-!
A shallow embedding of the internal test-execution engine of tmt
(`tmt/steps/execute/internal.py`): the reboot-aware test loop, the
reboot-request protocol, per-test output capture and the orchestration
across guests, together with theorems settling the specification's
claims about them.
-/

namespace TmtSpec

/-! ## Environment and filesystem model

A Python `dict` (used both for a test's environment mapping and, here, to
model the host data directory as a mapping from paths to file contents) is
embedded as an association list with Python-dict update semantics:
updating an existing key replaces its value in place, a fresh key is
appended. -/

abbrev Env := List (String × String)

def envGet : Env → String → Option String
  | [], _ => none
  | p :: ps, k => if p.1 == k then some p.2 else envGet ps k

def envHasKey : Env → String → Bool
  | [], _ => false
  | p :: ps, k => p.1 == k || envHasKey ps k

def envSet (env : Env) (k v : String) : Env :=
  if envHasKey env k then
    env.map (fun p => if p.1 == k then (k, v) else p)
  else
    env ++ [(k, v)]

abbrev Fs := Env

def fsRead (fs : Fs) (path : String) : Option String := envGet fs path

def fsWrite (fs : Fs) (path content : String) : Fs := envSet fs path content

/-! ## Reboot-request marker

`_handle_reboot` scans the captured output with
`re.search(r"Requesting reboot: (?P<count>\d+)", output)`: the leftmost
occurrence of the literal text followed by a maximal non-empty digit run. -/

def REBOOT_VARIABLE : String := "REBOOT_COUNT"

def REBOOT_SCRIPT_PATHS : List String :=
  ["/usr/bin/rstrnt-reboot", "/usr/bin/rhts-reboot"]

def REBOOT_SCRIPT : String :=
  "#!/bin/sh\nif [ -z \"$REBOOT_COUNT\" ]; then\n    export REBOOT_COUNT=0\nfi\necho \"Requesting reboot: $REBOOT_COUNT\"\n"

def isDigitChar (c : Char) : Bool := '0' ≤ c && c ≤ '9'

/-- Maximal digit run at the head of the character list (the greedy `\d+`). -/
def takeDigits : List Char → List Char
  | [] => []
  | c :: cs => if isDigitChar c then c :: takeDigits cs else []

def digitsToNat (ds : List Char) : Nat :=
  ds.foldl (fun acc c => 10 * acc + (c.toNat - '0'.toNat)) 0

def markerChars : List Char := "Requesting reboot: ".toList

def startsWith : List Char → List Char → Bool
  | [], _ => true
  | _ :: _, [] => false
  | p :: ps, c :: cs => p == c && startsWith ps cs

/-- A match of the regex anchored at the head of `cs`: the literal marker
text immediately followed by at least one digit. -/
def matchMarkerAt (cs : List Char) : Option Nat :=
  if startsWith markerChars cs then
    let ds := takeDigits (cs.drop markerChars.length)
    if ds.isEmpty then none else some (digitsToNat ds)
  else none

/-- Leftmost match, as `re.search` finds it. -/
def searchMarker : List Char → Option Nat
  | [] => none
  | c :: cs =>
    match matchMarkerAt (c :: cs) with
    | some n => some n
    | none => searchMarker cs

def findRebootCount (s : String) : Option Nat := searchMarker s.toList

example : findRebootCount "Requesting reboot: 0\n" = some 0 := by decide
example : findRebootCount "xx Requesting reboot: 12 yy" = some 12 := by decide
example : findRebootCount "Requesting reboot: x" = none := by decide
example : findRebootCount "nothing here" = none := by decide

/-! ## Data model

`Test` carries the fields the engine reads or writes: name, framework tag
(kept as the string the source compares against), the mutable environment
mapping and the mutable return code (`test.returncode`). -/

structure Test where
  name : String
  framework : String
  environment : Env
  returncode : Option Int := none
deriving Repr, DecidableEq

/-- Modelled from the spec: `TEST_OUTPUT_FILENAME` is imported from
`tmt.steps.execute` (not under `src/`); the spec fixes it as "one
plain-text file per test per guest run, at a fixed relative path inside
that test's own data directory". -/
def TEST_OUTPUT_FILENAME : String := "output.txt"

/-- Modelled from the spec: `self.data_path(test, full=True)` (not under
`src/`) yields the per-test data directory. -/
def dataDirectory (t : Test) : String := "execute/data/" ++ t.name

/-- `self.data_path(test, TEST_OUTPUT_FILENAME, full=True)`: the fixed
per-test output file. -/
def outputPath (t : Test) : String :=
  dataDirectory t ++ "/" ++ TEST_OUTPUT_FILENAME

/-- Modelled from the spec: `tmt.utils.PROCESS_TIMEOUT` (not under `src/`),
the reserved return-code sentinel for a deadline overrun. -/
def PROCESS_TIMEOUT : Int := 124

/-! ## Guest oracle

The provisioning subsystem is external (`tmt/steps/provision` is not under
`src/`); a guest is embedded as an oracle giving, per test index and
per attempt of that test, the outcome of each capability call. -/

/-- The three shapes `_setup_reboot` distinguishes:
`isinstance(guest, GuestLocal)`, `guest.__class__ is Guest` (a
pre-established plain connection), and any other, remotely-provisioned
guest class. -/
inductive GuestKind
  | guestLocal
  | plainConnect
  | provisioned
deriving Repr, DecidableEq

/-- Outcome of one `guest.execute` call for a test attempt: clean exit,
a `tmt.utils.RunError` carrying partial output and a return code, or a
deadline overrun. Modelled from the spec: on a deadline overrun the guest
execute capability (not under `src/`) fails with a `RunError` carrying the
reserved sentinel `PROCESS_TIMEOUT`. -/
inductive ExecAttempt
  | success (stdout : String)
  | runError (stdout : Option String) (returncode : Int)
  | deadline (stdout : Option String)
deriving Repr, DecidableEq

/-- One guest-side call made by the engine, as recorded in the run trace. -/
inductive GuestCall
  | installScript (path : String)
  | makeExecutable (path : String)
  | push
  | executeTest (name : String) (attempt : Nat) (environment : Env)
  | pull (path : String)
  | reboot
deriving Repr, DecidableEq

/-- Infrastructure-level failures: exceptions raised by the guest's
`push`, `pull` and `reboot` capabilities. -/
inductive GuestError
  | pushError
  | pullError
  | rebootError
deriving Repr, DecidableEq

/-- The oracle for one guest: its class shape and the outcome of each
capability call, indexed by test position and attempt number of that
test.  The two `guest.execute` calls that install the helper script are
taken to succeed. -/
structure GuestBehavior where
  kind : GuestKind
  pushOk : Bool
  pullOk : Nat → Nat → Bool
  rebootOk : Nat → Nat → Bool
  exec : Nat → Nat → ExecAttempt

/-- The captured combined output of an attempt, with `stdout or ''`
turning absent output into the empty string. -/
def capturedOutput : ExecAttempt → String
  | .success out => out
  | .runError out _ => out.getD ""
  | .deadline out => out.getD ""

/-- `test.returncode` after the attempt: `0` on success, the error's code
on a `RunError`, and the reserved sentinel on a deadline overrun. -/
def attemptReturncode : ExecAttempt → Int
  | .success _ => 0
  | .runError _ rc => rc
  | .deadline _ => PROCESS_TIMEOUT

/-! ## Results and engine state -/

/-- Modelled from the spec: the Result Checker (`self.check`, delegating
to `check_shell` / `check_beakerlib`, not under `src/`) produces one
finalized outcome per test from the test's run fields and its captured
output. -/
structure TmtResult where
  testName : String
  framework : String
  returncode : Option Int
  output : String
deriving Repr, DecidableEq

/-- Modelled from the spec: `check(test, output, returnCode, framework) ->
Result`, a pure function of its inputs. -/
def check (t : Test) (output : String) : TmtResult :=
  { testName := t.name, framework := t.framework,
    returncode := t.returncode, output := output }

structure EngineState where
  tests : List Test
  results : List TmtResult
  fs : Fs
  trace : List GuestCall
deriving Repr, DecidableEq

/-! ## `ExecuteInternal.execute`

One attempt: prepare the environment (for a beakerlib test, a copy of the
test's environment extended with `BEAKERLIB_DIR`), call `guest.execute`,
record the return code on the test, write the captured output (or `''`)
to the per-test output file, and note the timeout annotation used for the
inline report. -/

structure ExecResult where
  test : Test
  fs : Fs
  calls : List GuestCall
  timedOut : Bool
deriving Repr, DecidableEq

def executeStep (b : GuestBehavior) (index attempt : Nat) (t : Test)
    (fs : Fs) : ExecResult :=
  let environment :=
    if t.framework == "beakerlib" then
      envSet t.environment "BEAKERLIB_DIR" (dataDirectory t)
    else
      t.environment
  let outcome := b.exec index attempt
  let rc := attemptReturncode outcome
  { test := { t with returncode := some rc }
    fs := fsWrite fs (outputPath t) (capturedOutput outcome)
    calls := [.executeTest t.name attempt environment]
    timedOut := rc == PROCESS_TIMEOUT }

/-! ## `ExecuteInternal._handle_reboot` -/

structure RebootCheck where
  rebooted : Bool
  test : Test
  calls : List GuestCall
  err : Option GuestError
deriving Repr, DecidableEq

/-- Read the previously fetched test log; on a reboot-request marker with
count `N`, invoke `guest.reboot()` (an exception there propagates before
the assignment) and set `REBOOT_COUNT` to `N+1`; otherwise reset it to
`"0"`.  Returns whether a reboot was done. -/
def handleReboot (b : GuestBehavior) (index attempt : Nat) (t : Test)
    (fs : Fs) : RebootCheck :=
  let output := (fsRead fs (outputPath t)).getD ""
  match findRebootCount output with
  | some n =>
    if b.rebootOk index attempt then
      { rebooted := true
        test := { t with
          environment := envSet t.environment REBOOT_VARIABLE (toString (n + 1)) }
        calls := [.reboot]
        err := none }
    else
      { rebooted := false
        test := t
        calls := [.reboot]
        err := some .rebootError }
  | none =>
    { rebooted := false
      test := { t with environment := envSet t.environment REBOOT_VARIABLE "0" }
      calls := []
      err := none }

/-! ## `ExecuteInternal._setup_reboot`

On GuestLocal or a plain Guest connection, return without touching the
guest; otherwise overwrite each of the two conventional script paths with
the tmt implementation and make it executable. -/

def setupReboot (b : GuestBehavior) : List GuestCall :=
  if b.kind == .guestLocal || b.kind == .plainConnect then []
  else
    (REBOOT_SCRIPT_PATHS.map
      (fun p => [GuestCall.installScript p, GuestCall.makeExecutable p])).flatten

/-! ## `ExecuteInternal.go`: the reboot-aware test loop

The body of `while index < len(tests)` as one step, then the loop as a
fuel-indexed recursion (the source loop has no retry cap, so it need not
terminate; `outOfFuel` reports an undecided run). -/

inductive IterOut
  | next (index attempt : Nat) (st : EngineState)
  | fatal (err : GuestError) (st : EngineState)
deriving Repr, DecidableEq

def loopIter (b : GuestBehavior) (index attempt : Nat) (st : EngineState)
    (t : Test) : IterOut :=
  let ex := executeStep b index attempt t st.fs
  let st1 : EngineState :=
    { st with
        fs := ex.fs
        trace := st.trace ++ ex.calls
        tests := st.tests.set index ex.test }
  let st2 : EngineState :=
    { st1 with trace := st1.trace ++ [.pull (dataDirectory t)] }
  if b.pullOk index attempt then
    let hr := handleReboot b index attempt ex.test st2.fs
    let st3 : EngineState :=
      { st2 with
          trace := st2.trace ++ hr.calls
          tests := st2.tests.set index hr.test }
    match hr.err with
    | some e => .fatal e st3
    | none =>
      if hr.rebooted then
        .next index (attempt + 1) st3
      else
        let output := (fsRead st3.fs (outputPath hr.test)).getD ""
        .next (index + 1) 0
          { st3 with results := st3.results ++ [check hr.test output] }
  else
    .fatal .pullError st2

inductive RunOutcome
  | finished (st : EngineState)
  | fatal (err : GuestError) (st : EngineState)
  | outOfFuel (st : EngineState)
deriving Repr, DecidableEq

def runLoop (b : GuestBehavior) : Nat → Nat → Nat → EngineState → RunOutcome
  | 0, index, _, st =>
    if index < st.tests.length then .outOfFuel st else .finished st
  | fuel + 1, index, attempt, st =>
    match st.tests.get? index with
    | none => .finished st
    | some t =>
      match loopIter b index attempt st t with
      | .fatal e st' => .fatal e st'
      | .next index' attempt' st' => runLoop b fuel index' attempt' st'

/-- Per guest: install the reboot helper, push the workdir, then drive
the test loop from index 0. -/
def runGuest (b : GuestBehavior) (fuel : Nat) (st : EngineState) : RunOutcome :=
  let st1 : EngineState := { st with trace := st.trace ++ setupReboot b }
  let st2 : EngineState := { st1 with trace := st1.trace ++ [.push] }
  if b.pushOk then runLoop b fuel 0 0 st2
  else .fatal .pushError st2

def runGuests (guests : List GuestBehavior) (fuel : Nat)
    (st : EngineState) : RunOutcome :=
  match guests with
  | [] => .finished st
  | b :: rest =>
    match runGuest b fuel st with
    | .finished st' => runGuests rest fuel st'
    | out => out

/-- `ExecuteInternal.go`: reset `_results`, short-circuit in dry mode,
otherwise prepare the tests once and run every guest over the same test
list. -/
def go (dry : Bool) (guests : List GuestBehavior) (tests : List Test)
    (fuel : Nat) : RunOutcome :=
  let st0 : EngineState := { tests := tests, results := [], fs := [], trace := [] }
  if dry then .finished st0
  else runGuests guests fuel st0

/-! ## Observers used by the theorems -/

def outcomeState : RunOutcome → EngineState
  | .finished st => st
  | .fatal _ st => st
  | .outOfFuel st => st

/-- The environments passed to the guest's execute capability, in call
order, as recorded in a trace. -/
def execEnvs (calls : List GuestCall) : List Env :=
  calls.foldr
    (fun c acc =>
      match c with
      | .executeTest _ _ e => e :: acc
      | _ => acc) []

def testNames (l : List Test) : List String := l.map (fun t => t.name)

def resultNames (l : List TmtResult) : List String :=
  l.map (fun r => r.testName)

/-! ## Abbreviations for the states the loop produces -/

/-- The captured output of attempt `a` of the test at `index = i`. -/
def attemptOutput (b : GuestBehavior) (i a : Nat) : String :=
  capturedOutput (b.exec i a)

/-- The environment `execute` hands to `guest.execute`. -/
def execEnvOf (t : Test) : Env :=
  if t.framework == "beakerlib" then
    envSet t.environment "BEAKERLIB_DIR" (dataDirectory t)
  else t.environment

/-- The test right after `execute`: return code recorded. -/
def executedTest (b : GuestBehavior) (i a : Nat) (t : Test) : Test :=
  { t with returncode := some (attemptReturncode (b.exec i a)) }

/-- The test after a finalizing (non-rebooting) iteration. -/
def finalizedTest (b : GuestBehavior) (i a : Nat) (t : Test) : Test :=
  { t with
      returncode := some (attemptReturncode (b.exec i a))
      environment := envSet t.environment REBOOT_VARIABLE "0" }

/-- The test after a reboot-requesting iteration with marker count `n`. -/
def rebootedTest (b : GuestBehavior) (i a : Nat) (t : Test) (n : Nat) : Test :=
  { t with
      returncode := some (attemptReturncode (b.exec i a))
      environment := envSet t.environment REBOOT_VARIABLE (toString (n + 1)) }

def iterState : IterOut → EngineState
  | .next _ _ st => st
  | .fatal _ st => st

/-! ## Concrete inputs used by witnesses and counterexamples -/

def tShell : Test := { name := "t1", framework := "shell", environment := [] }

def tBeaker : Test :=
  { name := "t2", framework := "beakerlib", environment := [("PATH", "/bin")] }

def stOne : EngineState :=
  { tests := [tShell], results := [], fs := [], trace := [] }

/-- Healthy remotely-provisioned guest, never requesting reboot. -/
def gHealthy : GuestBehavior :=
  { kind := .provisioned
    pushOk := true
    pullOk := fun _ _ => true
    rebootOk := fun _ _ => true
    exec := fun _ _ => .success "all fine" }

/-- Local guest requesting one reboot on the first attempt. -/
def gRebootOnce : GuestBehavior :=
  { kind := .guestLocal
    pushOk := true
    pullOk := fun _ _ => true
    rebootOk := fun _ _ => true
    exec := fun _ a =>
      if a == 0 then .success "Requesting reboot: 0" else .success "done" }

/-- Guest whose pull capability raises on the first test. -/
def gPullFail : GuestBehavior :=
  { kind := .provisioned
    pushOk := true
    pullOk := fun _ _ => false
    rebootOk := fun _ _ => true
    exec := fun _ _ => .success "" }

/-- Guest whose pull capability raises from the second test on. -/
def gPullFail1 : GuestBehavior :=
  { kind := .provisioned
    pushOk := true
    pullOk := fun i _ => i == 0
    rebootOk := fun _ _ => true
    exec := fun _ _ => .success "ok" }

/-- Guest whose execute capability raises a RunError with code 1. -/
def gRunErr : GuestBehavior :=
  { kind := .provisioned
    pushOk := true
    pullOk := fun _ _ => true
    rebootOk := fun _ _ => true
    exec := fun _ _ => .runError (some "boom") 1 }

/-- Guest whose execute capability overruns its deadline. -/
def gDeadline : GuestBehavior :=
  { kind := .provisioned
    pushOk := true
    pullOk := fun _ _ => true
    rebootOk := fun _ _ => true
    exec := fun _ _ => .deadline (some "still running") }

/-- Marker counts 5 then 2: a test whose printed marker values decrease. -/
def fsFive : Fs := fsWrite [] (outputPath tShell) "Requesting reboot: 5"

def rcFirst : RebootCheck := handleReboot gHealthy 0 0 tShell fsFive

def fsTwo : Fs := fsWrite fsFive (outputPath rcFirst.test) "Requesting reboot: 2"

def rcSecond : RebootCheck := handleReboot gHealthy 0 1 rcFirst.test fsTwo

/-- Protocol-following chain: marker 0, then marker 1. -/
def fsZero : Fs := fsWrite [] (outputPath tShell) "Requesting reboot: 0"

def rcProto1 : RebootCheck := handleReboot gHealthy 0 0 tShell fsZero

def fsOne : Fs := fsWrite fsZero (outputPath rcProto1.test) "Requesting reboot: 1"

def rcProto2 : RebootCheck := handleReboot gHealthy 0 1 rcProto1.test fsOne

end TmtSpec

namespace TmtSpec

/-! ## Lemmas on the environment model -/

theorem envGet_map_set_self (env : Env) (k v : String)
    (h : envHasKey env k = true) :
    envGet (env.map (fun p => if p.1 == k then (k, v) else p)) k = some v := by
  induction env with
  | nil => simp [envHasKey] at h
  | cons p ps ih =>
    by_cases hp : p.1 = k
    · have h1 : (p.1 == k) = true := beq_iff_eq.mpr hp
      simp [envGet, h1]
    · have h1 : (p.1 == k) = false := beq_eq_false_iff_ne.mpr hp
      have h2 : envHasKey ps k = true := by
        simpa [envHasKey, h1] using h
      simp only [List.map_cons, envGet, h1, Bool.false_eq_true, if_false]
      simpa using ih h2

theorem envGet_append_single_self (env : Env) (k v : String)
    (h : envHasKey env k = false) :
    envGet (env ++ [(k, v)]) k = some v := by
  induction env with
  | nil => simp [envGet]
  | cons p ps ih =>
    have h1 : (p.1 == k) = false := by
      by_contra hc
      simp only [Bool.not_eq_false] at hc
      simp [envHasKey, hc] at h
    have h2 : envHasKey ps k = false := by
      simpa [envHasKey, h1] using h
    simp [envGet, h1, ih h2]

theorem envGet_envSet (env : Env) (k v : String) :
    envGet (envSet env k v) k = some v := by
  unfold envSet
  by_cases h : envHasKey env k
  · simp only [h, if_pos]
    exact envGet_map_set_self env k v h
  · simp only [Bool.not_eq_true] at h
    simp only [h, Bool.false_eq_true, if_neg, not_false_iff]
    exact envGet_append_single_self env k v h

theorem envGet_map_set_ne (env : Env) (k v k' : String) (h : k' ≠ k) :
    envGet (env.map (fun p => if p.1 == k then (k, v) else p)) k'
      = envGet env k' := by
  induction env with
  | nil => rfl
  | cons p ps ih =>
    by_cases hp : p.1 = k
    · have h1 : (p.1 == k) = true := beq_iff_eq.mpr hp
      have h2 : (k == k') = false := beq_eq_false_iff_ne.mpr (fun e => h e.symm)
      have h3 : (p.1 == k') = false := by
        rw [hp]; exact h2
      simp only [List.map_cons, h1, if_pos, envGet, h2, h3, Bool.false_eq_true,
        if_false]
      simpa using ih
    · have h1 : (p.1 == k) = false := beq_eq_false_iff_ne.mpr hp
      by_cases hp' : p.1 = k'
      · simp [envGet, h1, beq_iff_eq.mpr hp']
      · simp only [List.map_cons, envGet, h1, Bool.false_eq_true, if_false,
          beq_eq_false_iff_ne.mpr hp']
        simpa using ih

theorem envGet_append_single_ne (env : Env) (k v k' : String) (h : k' ≠ k) :
    envGet (env ++ [(k, v)]) k' = envGet env k' := by
  induction env with
  | nil =>
    simp [envGet, beq_eq_false_iff_ne.mpr (fun e => h e.symm)]
  | cons p ps ih =>
    by_cases hp : p.1 = k'
    · simp [envGet, beq_iff_eq.mpr hp]
    · simp [envGet, beq_eq_false_iff_ne.mpr hp, ih]

theorem envGet_envSet_ne (env : Env) (k v k' : String) (h : k' ≠ k) :
    envGet (envSet env k v) k' = envGet env k' := by
  unfold envSet
  by_cases hk : envHasKey env k
  · simp only [hk, if_pos]
    exact envGet_map_set_ne env k v k' h
  · simp only [Bool.not_eq_true] at hk
    simp only [hk, Bool.false_eq_true, if_neg, not_false_iff]
    exact envGet_append_single_ne env k v k' h

theorem fsRead_fsWrite (fs : Fs) (p v : String) :
    fsRead (fsWrite fs p v) p = some v := envGet_envSet fs p v

/-! ## List helper lemmas -/

theorem testNames_set_same (l : List Test) (i : Nat) (t t' : Test)
    (h : l.get? i = some t) (hn : t'.name = t.name) :
    testNames (l.set i t') = testNames l := by
  induction l generalizing i with
  | nil => simp at h
  | cons x xs ih =>
    cases i with
    | zero =>
      rw [List.get?_cons_zero, Option.some_inj] at h
      subst h
      simp [testNames, List.set, hn]
    | succ j =>
      rw [List.get?_cons_succ] at h
      simp only [List.set, testNames, List.map_cons, List.cons.injEq, true_and]
      simpa [testNames] using ih j h

theorem testNames_drop_cons (l : List Test) (i : Nat) (t : Test)
    (h : l.get? i = some t) :
    (testNames l).drop i = t.name :: (testNames l).drop (i + 1) := by
  induction l generalizing i with
  | nil => simp at h
  | cons x xs ih =>
    cases i with
    | zero =>
      rw [List.get?_cons_zero, Option.some_inj] at h
      subst h
      simp [testNames]
    | succ j =>
      rw [List.get?_cons_succ] at h
      simp only [testNames, List.map_cons, List.drop_succ_cons]
      simpa [testNames] using ih j h

/-! ## Closed forms of one loop iteration -/

/-- No reboot marker in the captured output, pull succeeds: the loop
finalizes the test, appends exactly one Result and advances the index. -/
theorem loopIter_no_marker (b : GuestBehavior) (i a : Nat) (st : EngineState)
    (t : Test) (hpull : b.pullOk i a = true)
    (hm : findRebootCount (capturedOutput (b.exec i a)) = none) :
    loopIter b i a st t =
      .next (i + 1) 0
        { tests := st.tests.set i (finalizedTest b i a t)
          results := st.results
            ++ [check (finalizedTest b i a t) (capturedOutput (b.exec i a))]
          fs := fsWrite st.fs (outputPath t) (capturedOutput (b.exec i a))
          trace := st.trace
            ++ [.executeTest t.name a (execEnvOf t), .pull (dataDirectory t)] } := by
  simp only [loopIter, executeStep, handleReboot, execEnvOf, finalizedTest,
    outputPath, dataDirectory, fsRead_fsWrite, fsRead, fsWrite, envGet_envSet,
    hpull, hm, if_true, Bool.false_eq_true, if_false, Option.getD_some,
    List.set_set, List.append_nil, List.append_assoc, List.singleton_append,
    List.cons_append, List.nil_append]


/-- Reboot marker found and `guest.reboot` succeeds: the loop keeps the
index, bumps the attempt counter and emits no Result. -/
theorem loopIter_marker (b : GuestBehavior) (i a : Nat) (st : EngineState)
    (t : Test) (n : Nat) (hpull : b.pullOk i a = true)
    (hm : findRebootCount (capturedOutput (b.exec i a)) = some n)
    (hreb : b.rebootOk i a = true) :
    loopIter b i a st t =
      .next i (a + 1)
        { tests := st.tests.set i (rebootedTest b i a t n)
          results := st.results
          fs := fsWrite st.fs (outputPath t) (capturedOutput (b.exec i a))
          trace := st.trace
            ++ [.executeTest t.name a (execEnvOf t), .pull (dataDirectory t),
                .reboot] } := by
  simp only [loopIter, executeStep, handleReboot, execEnvOf, rebootedTest,
    outputPath, dataDirectory, fsRead_fsWrite, fsRead, fsWrite, envGet_envSet,
    hpull, hm, hreb, if_true, Bool.false_eq_true, if_false, Option.getD_some,
    List.set_set, List.append_nil, List.append_assoc, List.singleton_append,
    List.cons_append, List.nil_append]

/-- Reboot marker found but `guest.reboot` raises: the error is fatal, no
Result is emitted and `REBOOT_COUNT` is left untouched. -/
theorem loopIter_reboot_fails (b : GuestBehavior) (i a : Nat)
    (st : EngineState) (t : Test) (n : Nat) (hpull : b.pullOk i a = true)
    (hm : findRebootCount (capturedOutput (b.exec i a)) = some n)
    (hreb : b.rebootOk i a = false) :
    loopIter b i a st t =
      .fatal .rebootError
        { tests := st.tests.set i (executedTest b i a t)
          results := st.results
          fs := fsWrite st.fs (outputPath t) (capturedOutput (b.exec i a))
          trace := st.trace
            ++ [.executeTest t.name a (execEnvOf t), .pull (dataDirectory t),
                .reboot] } := by
  simp only [loopIter, executeStep, handleReboot, execEnvOf, executedTest,
    outputPath, dataDirectory, fsRead_fsWrite, fsRead, fsWrite, envGet_envSet,
    hpull, hm, hreb, if_true, Bool.false_eq_true, if_false, Option.getD_some,
    List.set_set, List.append_nil, List.append_assoc, List.singleton_append,
    List.cons_append, List.nil_append]

/-- `guest.pull` raises: the error is fatal and no Result is emitted. -/
theorem loopIter_pull_fails (b : GuestBehavior) (i a : Nat)
    (st : EngineState) (t : Test) (hpull : b.pullOk i a = false) :
    loopIter b i a st t =
      .fatal .pullError
        { tests := st.tests.set i (executedTest b i a t)
          results := st.results
          fs := fsWrite st.fs (outputPath t) (capturedOutput (b.exec i a))
          trace := st.trace
            ++ [.executeTest t.name a (execEnvOf t), .pull (dataDirectory t)] } := by
  simp only [loopIter, executeStep, execEnvOf, executedTest, outputPath,
    dataDirectory, fsWrite, hpull, Bool.false_eq_true, if_false,
    List.append_assoc, List.singleton_append, List.cons_append,
    List.nil_append]

/-! ## Closed forms of the loop driver -/

theorem runLoop_zero (b : GuestBehavior) (i a : Nat) (st : EngineState) :
    runLoop b 0 i a st =
      if i < st.tests.length then .outOfFuel st else .finished st := rfl

theorem runLoop_succ_none (b : GuestBehavior) (fuel i a : Nat)
    (st : EngineState) (h : st.tests.get? i = none) :
    runLoop b (fuel + 1) i a st = .finished st := by
  rw [List.get?_eq_getElem?] at h
  simp [runLoop, h]

theorem runLoop_succ_some (b : GuestBehavior) (fuel i a : Nat)
    (st : EngineState) (t : Test) (h : st.tests.get? i = some t) :
    runLoop b (fuel + 1) i a st =
      match loopIter b i a st t with
      | .fatal e st2 => .fatal e st2
      | .next i2 a2 st2 => runLoop b fuel i2 a2 st2 := by
  rw [List.get?_eq_getElem?] at h
  simp [runLoop, h]

/-- With pull healthy and no reboot marker in any captured output, the
loop finishes and appends one Result per remaining test, in order, while
preserving the test names. -/
theorem runLoop_no_marker_names (b : GuestBehavior)
    (hpull : ∀ i a, b.pullOk i a = true)
    (hm : ∀ i a, findRebootCount (capturedOutput (b.exec i a)) = none) :
    ∀ fuel i st, st.tests.length ≤ i + fuel →
      ∃ st2, runLoop b fuel i 0 st = .finished st2 ∧
        resultNames st2.results
          = resultNames st.results ++ (testNames st.tests).drop i ∧
        testNames st2.tests = testNames st.tests := by
  intro fuel
  induction fuel with
  | zero =>
    intro i st hlen
    have hni : ¬ i < st.tests.length := by omega
    refine ⟨st, ?_, ?_, rfl⟩
    · simp [runLoop_zero, hni]
    · have hdrop : (testNames st.tests).drop i = [] := by
        apply List.drop_eq_nil_of_le
        simpa [testNames] using hlen
      simp [hdrop]
  | succ fuel ih =>
    intro i st hlen
    by_cases hi : i < st.tests.length
    · have ht : st.tests.get? i = some (st.tests.get ⟨i, hi⟩) :=
        List.get?_eq_get hi
      set t := st.tests.get ⟨i, hi⟩ with htdef
      rw [runLoop_succ_some b fuel i 0 st t ht,
        loopIter_no_marker b i 0 st t (hpull i 0) (hm i 0)]
      obtain ⟨st2, hrun, hres, htests⟩ :=
        ih (i + 1)
          { tests := st.tests.set i (finalizedTest b i 0 t)
            results := st.results
              ++ [check (finalizedTest b i 0 t) (capturedOutput (b.exec i 0))]
            fs := fsWrite st.fs (outputPath t) (capturedOutput (b.exec i 0))
            trace := st.trace
              ++ [.executeTest t.name 0 (execEnvOf t), .pull (dataDirectory t)] }
          (by simp only [List.length_set]; omega)
      refine ⟨st2, hrun, ?_, ?_⟩
      · rw [hres]
        have hname : (finalizedTest b i 0 t).name = t.name := rfl
        have hsetnames :
            testNames (st.tests.set i (finalizedTest b i 0 t))
              = testNames st.tests :=
          testNames_set_same st.tests i t (finalizedTest b i 0 t) ht hname
        have hdrop := testNames_drop_cons st.tests i t ht
        simp only [resultNames, List.map_append, List.map_cons, List.map_nil,
          check, hsetnames, hdrop]
        simp [resultNames, List.append_assoc, hname]
      · rw [htests]
        exact testNames_set_same st.tests i t (finalizedTest b i 0 t) ht rfl
    · have ht : st.tests.get? i = none := by
        rw [List.get?_eq_getElem?]
        exact List.getElem?_eq_none (by omega)
      refine ⟨st, runLoop_succ_none b fuel i 0 st ht, ?_, rfl⟩
      have hdrop : (testNames st.tests).drop i = [] := by
        apply List.drop_eq_nil_of_le
        simp only [testNames, List.length_map]
        omega
      simp [hdrop]

theorem runLoop_succ_fatal (b : GuestBehavior) (fuel i a : Nat)
    (st : EngineState) (t : Test) (e : GuestError) (st2 : EngineState)
    (h : st.tests.get? i = some t)
    (hl : loopIter b i a st t = .fatal e st2) :
    runLoop b (fuel + 1) i a st = .fatal e st2 := by
  rw [runLoop_succ_some b fuel i a st t h, hl]

theorem runLoop_succ_next (b : GuestBehavior) (fuel i a : Nat)
    (st : EngineState) (t : Test) (i2 a2 : Nat) (st2 : EngineState)
    (h : st.tests.get? i = some t)
    (hl : loopIter b i a st t = .next i2 a2 st2) :
    runLoop b (fuel + 1) i a st = runLoop b fuel i2 a2 st2 := by
  rw [runLoop_succ_some b fuel i a st t h, hl]

/-- The loop never plants a key other than `REBOOT_COUNT` into any test
environment: a key absent from every test environment stays absent,
whatever the run's outcome. -/
theorem runLoop_env_key_invariant (b : GuestBehavior) (k : String)
    (hk : k ≠ REBOOT_VARIABLE) :
    ∀ fuel i a st,
      (∀ t2, t2 ∈ st.tests → envGet t2.environment k = none) →
      ∀ t2, t2 ∈ (outcomeState (runLoop b fuel i a st)).tests →
        envGet t2.environment k = none := by
  intro fuel
  induction fuel with
  | zero =>
    intro i a st hinv t2 ht2
    rw [runLoop_zero] at ht2
    by_cases hi : i < st.tests.length
    · simp only [hi, if_true, outcomeState] at ht2
      exact hinv t2 ht2
    · simp only [hi, if_false, outcomeState] at ht2
      exact hinv t2 ht2
  | succ fuel ih =>
    intro i a st hinv t2 ht2
    cases hget : st.tests.get? i with
    | none =>
      rw [runLoop_succ_none b fuel i a st hget] at ht2
      exact hinv t2 ht2
    | some t =>
      have htmem : t ∈ st.tests := List.get?_mem hget
      by_cases hpull : b.pullOk i a = true
      · cases hmark : findRebootCount (capturedOutput (b.exec i a)) with
        | none =>
          rw [runLoop_succ_next b fuel i a st t _ _ _ hget
            (loopIter_no_marker b i a st t hpull hmark)] at ht2
          refine ih (i + 1) 0 _ ?_ t2 ht2
          intro t3 ht3
          rcases List.mem_or_eq_of_mem_set ht3 with h3 | h3
          · exact hinv t3 h3
          · subst h3
            simp only [finalizedTest]
            rw [envGet_envSet_ne _ _ _ _ hk]
            exact hinv t htmem
        | some n =>
          by_cases hreb : b.rebootOk i a = true
          · rw [runLoop_succ_next b fuel i a st t _ _ _ hget
              (loopIter_marker b i a st t n hpull hmark hreb)] at ht2
            refine ih i (a + 1) _ ?_ t2 ht2
            intro t3 ht3
            rcases List.mem_or_eq_of_mem_set ht3 with h3 | h3
            · exact hinv t3 h3
            · subst h3
              simp only [rebootedTest]
              rw [envGet_envSet_ne _ _ _ _ hk]
              exact hinv t htmem
          · have hreb2 : b.rebootOk i a = false := by
              simpa using hreb
            rw [runLoop_succ_fatal b fuel i a st t _ _ hget
              (loopIter_reboot_fails b i a st t n hpull hmark hreb2)] at ht2
            simp only [outcomeState] at ht2
            rcases List.mem_or_eq_of_mem_set ht2 with h3 | h3
            · exact hinv t2 h3
            · subst h3
              simp only [executedTest]
              exact hinv t htmem
      · have hpull2 : b.pullOk i a = false := by
          simpa using hpull
        rw [runLoop_succ_fatal b fuel i a st t _ _ hget
          (loopIter_pull_fails b i a st t hpull2)] at ht2
        simp only [outcomeState] at ht2
        rcases List.mem_or_eq_of_mem_set ht2 with h3 | h3
        · exact hinv t2 h3
        · subst h3
          simp only [executedTest]
          exact hinv t htmem

/-- With no markers, healthy pulls up to test `j` and a failing pull at
`j`: the loop aborts with a pull error, keeping exactly the Results of
the tests before `j`. -/
theorem runLoop_pull_fail_preserves (b : GuestBehavior)
    (hm : ∀ i a, findRebootCount (capturedOutput (b.exec i a)) = none)
    (j : Nat) (hpull : ∀ i2 a2, i2 < j → b.pullOk i2 a2 = true)
    (hfail : b.pullOk j 0 = false) :
    ∀ fuel i st, i ≤ j → j < st.tests.length → j - i < fuel →
      ∃ st2, runLoop b fuel i 0 st = .fatal .pullError st2 ∧
        resultNames st2.results = resultNames st.results
          ++ ((testNames st.tests).drop i).take (j - i) := by
  intro fuel
  induction fuel with
  | zero =>
    intro i st hij hjlen hfuel
    omega
  | succ fuel ih =>
    intro i st hij hjlen hfuel
    have hi : i < st.tests.length := by omega
    have ht : st.tests.get? i = some (st.tests.get ⟨i, hi⟩) :=
      List.get?_eq_get hi
    set t := st.tests.get ⟨i, hi⟩ with htdef
    by_cases hicase : i = j
    · subst hicase
      refine ⟨_, runLoop_succ_fatal b fuel i 0 st t _ _ ht
        (loopIter_pull_fails b i 0 st t hfail), ?_⟩
      simp
    · have hij2 : i < j := by omega
      rw [runLoop_succ_next b fuel i 0 st t _ _ _ ht
        (loopIter_no_marker b i 0 st t (hpull i 0 hij2) (hm i 0))]
      obtain ⟨st2, hrun, hres⟩ :=
        ih (i + 1)
          { tests := st.tests.set i (finalizedTest b i 0 t)
            results := st.results
              ++ [check (finalizedTest b i 0 t) (capturedOutput (b.exec i 0))]
            fs := fsWrite st.fs (outputPath t) (capturedOutput (b.exec i 0))
            trace := st.trace
              ++ [.executeTest t.name 0 (execEnvOf t), .pull (dataDirectory t)] }
          (by omega) (by simp only [List.length_set]; omega) (by omega)
      refine ⟨st2, hrun, ?_⟩
      rw [hres]
      have hsetnames :
          testNames (st.tests.set i (finalizedTest b i 0 t))
            = testNames st.tests :=
        testNames_set_same st.tests i t (finalizedTest b i 0 t) ht rfl
      have hdrop := testNames_drop_cons st.tests i t ht
      have hji : j - i = (j - (i + 1)) + 1 := by omega
      simp only [resultNames, List.map_append, List.map_cons, List.map_nil,
        check, hsetnames]
      rw [hji, hdrop, List.take_succ_cons]
      simp [resultNames, List.append_assoc]
      rfl

/-! ## Theorems settling the claims -/

/-- C1: an execution attempt is retried at the same index with no Result
emitted if and only if its captured output contains a
`Requesting reboot: <N>` marker; when the marker is absent, the loop
emits exactly one Result for the test and advances the index. -/
theorem retry_iff_reboot_marker (b : GuestBehavior) (i a : Nat)
    (st : EngineState) (t : Test)
    (hpull : b.pullOk i a = true) (hreb : b.rebootOk i a = true) :
    ((∃ st2, loopIter b i a st t = .next i (a + 1) st2 ∧
        st2.results = st.results)
      ↔ (findRebootCount (capturedOutput (b.exec i a))).isSome = true) ∧
    (findRebootCount (capturedOutput (b.exec i a)) = none →
      ∃ st2, loopIter b i a st t = .next (i + 1) 0 st2 ∧
        st2.results = st.results
          ++ [check (finalizedTest b i a t) (capturedOutput (b.exec i a))]) := by
  constructor
  · constructor
    · rintro ⟨st2, heq, -⟩
      cases hm : findRebootCount (capturedOutput (b.exec i a)) with
      | none =>
        rw [loopIter_no_marker b i a st t hpull hm] at heq
        simp only [IterOut.next.injEq] at heq
        obtain ⟨h1, -, -⟩ := heq
        omega
      | some n => simp
    · intro hsome
      obtain ⟨n, hm⟩ := Option.isSome_iff_exists.mp hsome
      rw [loopIter_marker b i a st t n hpull hm hreb]
      exact ⟨_, rfl, rfl⟩
  · intro hm
    rw [loopIter_no_marker b i a st t hpull hm]
    exact ⟨_, rfl, rfl⟩

/-- Witness for C1 at a concrete guest and test. -/
theorem retry_iff_reboot_marker_witness :
    ((∃ st2, loopIter gHealthy 0 0 stOne tShell = .next 0 1 st2 ∧
        st2.results = stOne.results)
      ↔ (findRebootCount (capturedOutput (gHealthy.exec 0 0))).isSome = true) ∧
    (findRebootCount (capturedOutput (gHealthy.exec 0 0)) = none →
      ∃ st2, loopIter gHealthy 0 0 stOne tShell = .next 1 0 st2 ∧
        st2.results = stOne.results
          ++ [check (finalizedTest gHealthy 0 0 tShell)
               (capturedOutput (gHealthy.exec 0 0))]) :=
  retry_iff_reboot_marker gHealthy 0 0 stOne tShell rfl rfl

/-- C2: on a guest that never requests a reboot (and whose infrastructure
calls succeed), the run produces exactly one Result per test, appended
strictly in input order, with no duplicates and no skipped tests. -/
theorem one_result_per_test_in_input_order (b : GuestBehavior)
    (tests : List Test) (hne : tests ≠ [])
    (hpush : b.pushOk = true)
    (hpull : ∀ i a, b.pullOk i a = true)
    (hm : ∀ i a, findRebootCount (capturedOutput (b.exec i a)) = none) :
    ∃ st2, go false [b] tests tests.length = .finished st2 ∧
      resultNames st2.results = testNames tests ∧
      st2.results.length = tests.length := by
  obtain ⟨st2, hrun, hres, -⟩ :=
    runLoop_no_marker_names b hpull hm tests.length 0
      { tests := tests
        results := []
        fs := []
        trace := setupReboot b ++ [GuestCall.push] }
      (by simp)
  have hgo : go false [b] tests tests.length = .finished st2 := by
    simp only [go, runGuests, runGuest, hpush, if_true, Bool.false_eq_true,
      if_false, List.nil_append]
    rw [hrun]
  refine ⟨st2, hgo, ?_, ?_⟩
  · simpa [resultNames, testNames] using hres
  · have : (resultNames st2.results).length = (testNames tests).length := by
      rw [hres]
      simp [resultNames, testNames]
    simpa [resultNames, testNames] using this

/-- Witness for C2: two shell tests, one pass and one failure, on a
healthy guest. -/
theorem one_result_per_test_in_input_order_witness :
    ∃ st2, go false [gHealthy] [tShell, tBeaker] 2 = .finished st2 ∧
      resultNames st2.results = testNames [tShell, tBeaker] ∧
      st2.results.length = 2 :=
  one_result_per_test_in_input_order gHealthy [tShell, tBeaker]
    (by decide) rfl (fun _ _ => rfl) (fun _ _ => rfl)

/-- C4: with the dry-run option set, the engine returns an empty Result
list, records no guest-side call and leaves no other state behind. -/
theorem dry_run_no_effects (guests : List GuestBehavior) (tests : List Test)
    (fuel : Nat) :
    go true guests tests fuel
      = .finished { tests := tests, results := [], fs := [], trace := [] } :=
  rfl

/-- C3 counterexample: two consecutive reboot-requesting attempts of the
same test, with marker values 5 then 2, drive `REBOOT_COUNT` from `"6"`
down to `"3"`: the counter does not increase strictly monotonically. -/
theorem reboot_count_not_monotonic :
    rcFirst.rebooted = true ∧ rcSecond.rebooted = true ∧
    envGet rcFirst.test.environment REBOOT_VARIABLE = some "6" ∧
    envGet rcSecond.test.environment REBOOT_VARIABLE = some "3" ∧
    digitsToNat "3".toList < digitsToNat "6".toList := by decide

/-- C3 (amended): after an attempt whose output carries marker `N`, the
guest's reboot capability is invoked and `REBOOT_COUNT` becomes
`toString (N+1)`; after an attempt with no marker, `REBOOT_COUNT` is set
to `"0"` and no reboot is invoked; and across consecutive
reboot-requesting attempts the counter increases strictly whenever the
later attempt's marker carries the updated counter value `N+1`, as the
injected helper script prints it. -/
theorem reboot_count_update (b : GuestBehavior) (i a a2 : Nat) (t : Test)
    (fs fs2 : Fs) :
    (∀ n, findRebootCount ((fsRead fs (outputPath t)).getD "") = some n →
      b.rebootOk i a = true →
      (handleReboot b i a t fs).rebooted = true ∧
      GuestCall.reboot ∈ (handleReboot b i a t fs).calls ∧
      envGet (handleReboot b i a t fs).test.environment REBOOT_VARIABLE
        = some (toString (n + 1))) ∧
    (findRebootCount ((fsRead fs (outputPath t)).getD "") = none →
      (handleReboot b i a t fs).rebooted = false ∧
      (handleReboot b i a t fs).calls = [] ∧
      envGet (handleReboot b i a t fs).test.environment REBOOT_VARIABLE
        = some "0") ∧
    (∀ n, findRebootCount ((fsRead fs (outputPath t)).getD "") = some n →
      b.rebootOk i a = true →
      findRebootCount
          ((fsRead fs2 (outputPath (handleReboot b i a t fs).test)).getD "")
        = some (n + 1) →
      b.rebootOk i a2 = true →
      envGet (handleReboot b i a t fs).test.environment REBOOT_VARIABLE
          = some (toString (n + 1)) ∧
      envGet (handleReboot b i a2 (handleReboot b i a t fs).test
          fs2).test.environment REBOOT_VARIABLE = some (toString (n + 2)) ∧
      n + 1 < n + 2) := by
  have hpart1 : ∀ (a3 : Nat) (t3 : Test) (fs3 : Fs) (n3 : Nat),
      findRebootCount ((fsRead fs3 (outputPath t3)).getD "") = some n3 →
      b.rebootOk i a3 = true →
      (handleReboot b i a3 t3 fs3).rebooted = true ∧
      GuestCall.reboot ∈ (handleReboot b i a3 t3 fs3).calls ∧
      envGet (handleReboot b i a3 t3 fs3).test.environment REBOOT_VARIABLE
        = some (toString (n3 + 1)) := by
    intro a3 t3 fs3 n3 hn hr
    simp only [handleReboot, hn, hr, if_true]
    simp [envGet_envSet]
  refine ⟨fun n hn hr => hpart1 a t fs n hn hr, ?_, ?_⟩
  · intro hn
    simp only [handleReboot, hn]
    simp [envGet_envSet]
  · intro n hn hr hn2 hr2
    obtain ⟨-, -, h1⟩ := hpart1 a t fs n hn hr
    obtain ⟨-, -, h2⟩ := hpart1 a2 _ fs2 (n + 1) hn2 hr2
    refine ⟨h1, ?_, by omega⟩
    rw [h2]

/-- Witness for C3 (amended): the protocol-following chain with markers
0 then 1. -/
theorem reboot_count_update_witness :
    envGet (handleReboot gHealthy 0 0 tShell fsZero).test.environment
        REBOOT_VARIABLE = some (toString (0 + 1)) ∧
    envGet (handleReboot gHealthy 0 1 (handleReboot gHealthy 0 0 tShell
        fsZero).test fsOne).test.environment REBOOT_VARIABLE
      = some (toString (0 + 2)) ∧
    0 + 1 < 0 + 2 := by
  obtain ⟨-, -, h3⟩ := reboot_count_update gHealthy 0 0 1 tShell fsZero fsOne
  exact h3 0 (by decide) rfl (by decide) rfl

/-- C5: exceptions from the guest's push, pull or reboot capability are
fatal and abort the run while preserving every Result finalized before
the failure; a failing test execution attempt (RunError, including the
timeout sentinel) never aborts the run but is converted into a Result
and the run continues. -/
theorem guest_failures_fatal_test_failures_recovered (b : GuestBehavior)
    (i a : Nat) (st : EngineState) (t : Test) :
    (b.pullOk i a = false →
      ∃ st2, loopIter b i a st t = .fatal .pullError st2 ∧
        st2.results = st.results) ∧
    (∀ n, b.pullOk i a = true →
      findRebootCount (capturedOutput (b.exec i a)) = some n →
      b.rebootOk i a = false →
      ∃ st2, loopIter b i a st t = .fatal .rebootError st2 ∧
        st2.results = st.results) ∧
    (b.pushOk = false → ∀ fuel,
      ∃ st2, runGuest b fuel st = .fatal .pushError st2 ∧
        st2.results = st.results) ∧
    (∀ fuel e st2, st.tests.get? i = some t →
      loopIter b i a st t = .fatal e st2 →
      runLoop b (fuel + 1) i a st = .fatal e st2) ∧
    (∀ out rc, b.exec i a = .runError out rc →
      b.pullOk i a = true →
      findRebootCount (out.getD "") = none →
      ∃ st2, loopIter b i a st t = .next (i + 1) 0 st2 ∧
        st2.results = st.results
          ++ [check (finalizedTest b i a t) (out.getD "")] ∧
        (finalizedTest b i a t).returncode = some rc) ∧
    (∀ tests j, b.pushOk = true →
      (∀ i2 a2, i2 < j → b.pullOk i2 a2 = true) →
      b.pullOk j 0 = false →
      (∀ i2 a2, findRebootCount (capturedOutput (b.exec i2 a2)) = none) →
      j < tests.length →
      ∃ st2, go false [b] tests tests.length = .fatal .pullError st2 ∧
        resultNames st2.results = (testNames tests).take j) := by
  refine ⟨?_, ?_, ?_, ?_, ?_, ?_⟩
  · intro hpull
    exact ⟨_, loopIter_pull_fails b i a st t hpull, rfl⟩
  · intro n hpull hm hreb
    exact ⟨_, loopIter_reboot_fails b i a st t n hpull hm hreb, rfl⟩
  · intro hpush fuel
    refine ⟨{ st with trace := st.trace ++ setupReboot b ++ [GuestCall.push] },
      ?_, rfl⟩
    simp only [runGuest, hpush, Bool.false_eq_true, if_false,
      List.append_assoc]
  · intro fuel e st2 hget hl
    exact runLoop_succ_fatal b fuel i a st t e st2 hget hl
  · intro out rc hexec hpull hm
    have hcap : capturedOutput (b.exec i a) = out.getD "" := by
      rw [hexec]; rfl
    have hm2 : findRebootCount (capturedOutput (b.exec i a)) = none := by
      rw [hcap]; exact hm
    refine ⟨_, loopIter_no_marker b i a st t hpull hm2, ?_, ?_⟩
    · rw [hcap]
    · simp [finalizedTest, hexec, attemptReturncode]
  · intro tests j hpush hpull2 hfail hm2 hjlen
    obtain ⟨st2, hrun, hres⟩ :=
      runLoop_pull_fail_preserves b hm2 j hpull2 hfail tests.length 0
        { tests := tests
          results := []
          fs := []
          trace := setupReboot b ++ [GuestCall.push] }
        (by omega) (by simpa using hjlen) (by omega)
    refine ⟨st2, ?_, ?_⟩
    · simp only [go, runGuests, runGuest, hpush, if_true, Bool.false_eq_true,
        if_false, List.nil_append]
      rw [hrun]
    · simpa using hres

/-- Witness for C5 at concrete guests: a failing pull aborts with the
results kept, and a RunError attempt is converted into a Result. -/
theorem guest_failures_fatal_test_failures_recovered_witness :
    (∃ st2, loopIter gPullFail 0 0 stOne tShell = .fatal .pullError st2 ∧
      st2.results = stOne.results) ∧
    (∃ st2, loopIter gRunErr 0 0 stOne tShell = .next 1 0 st2 ∧
      st2.results = stOne.results
        ++ [check (finalizedTest gRunErr 0 0 tShell) ((some "boom").getD "")] ∧
      (finalizedTest gRunErr 0 0 tShell).returncode = some 1) ∧
    (∃ st2, go false [gPullFail1] [tShell, tBeaker] 2
        = .fatal .pullError st2 ∧
      resultNames st2.results = (testNames [tShell, tBeaker]).take 1) := by
  refine ⟨?_, ?_, ?_⟩
  · obtain ⟨h1, -, -, -, -, -⟩ :=
      guest_failures_fatal_test_failures_recovered gPullFail 0 0 stOne tShell
    exact h1 rfl
  · obtain ⟨-, -, -, -, h5, -⟩ :=
      guest_failures_fatal_test_failures_recovered gRunErr 0 0 stOne tShell
    exact h5 (some "boom") 1 rfl rfl (by decide)
  · obtain ⟨-, -, -, -, -, h6⟩ :=
      guest_failures_fatal_test_failures_recovered gPullFail1 0 0 stOne tShell
    exact h6 [tShell, tBeaker] 1 rfl
      (fun i2 a2 h => by
        have hz : i2 = 0 := by omega
        subst hz
        rfl)
      rfl (fun _ _ => rfl) (by decide)

/-- C6: a deadline overrun surfaces as the reserved timeout sentinel —
the test's return code is set to the sentinel and the attempt is
annotated as a timeout — while an execution failure with any other
return code receives no timeout annotation. -/
theorem timeout_sentinel (b : GuestBehavior) (i a : Nat) (t : Test)
    (fs : Fs) :
    (∀ out, b.exec i a = .deadline out →
      attemptReturncode (b.exec i a) = PROCESS_TIMEOUT ∧
      (executeStep b i a t fs).test.returncode = some PROCESS_TIMEOUT ∧
      (executeStep b i a t fs).timedOut = true) ∧
    (∀ out rc, b.exec i a = .runError out rc → rc ≠ PROCESS_TIMEOUT →
      (executeStep b i a t fs).test.returncode = some rc ∧
      (executeStep b i a t fs).timedOut = false) := by
  constructor
  · intro out hexec
    refine ⟨by rw [hexec]; rfl, ?_, ?_⟩
    · simp [executeStep, hexec, attemptReturncode]
    · simp [executeStep, hexec, attemptReturncode]
  · intro out rc hexec hrc
    refine ⟨?_, ?_⟩
    · simp [executeStep, hexec, attemptReturncode]
    · simp [executeStep, hexec, attemptReturncode,
        beq_eq_false_iff_ne.mpr hrc]

/-- Witness for C6: a guest overrunning the deadline, and a guest failing
with return code 1. -/
theorem timeout_sentinel_witness :
    ((executeStep gDeadline 0 0 tShell []).test.returncode
        = some PROCESS_TIMEOUT ∧
      (executeStep gDeadline 0 0 tShell []).timedOut = true) ∧
    ((executeStep gRunErr 0 0 tShell []).test.returncode = some 1 ∧
      (executeStep gRunErr 0 0 tShell []).timedOut = false) := by
  constructor
  · obtain ⟨h1, -⟩ := timeout_sentinel gDeadline 0 0 tShell []
    obtain ⟨-, h2, h3⟩ := h1 (some "still running") rfl
    exact ⟨h2, h3⟩
  · obtain ⟨-, h2⟩ := timeout_sentinel gRunErr 0 0 tShell []
    exact h2 (some "boom") 1 rfl (by decide)

/-- C7: the reboot-trigger helper script is installed (and made
executable) only on remotely-provisioned guests — on a local guest or a
plain pre-established connection, reboot setup performs no guest call —
and on a remote guest every installation lands on one of the two
conventional executable paths. -/
theorem reboot_script_setup (b : GuestBehavior) :
    (b.kind = .guestLocal ∨ b.kind = .plainConnect → setupReboot b = []) ∧
    (b.kind = .provisioned →
      setupReboot b =
        [.installScript "/usr/bin/rstrnt-reboot",
         .makeExecutable "/usr/bin/rstrnt-reboot",
         .installScript "/usr/bin/rhts-reboot",
         .makeExecutable "/usr/bin/rhts-reboot"] ∧
      (∀ p, GuestCall.installScript p ∈ setupReboot b →
        p ∈ REBOOT_SCRIPT_PATHS) ∧
      (∃ p, p ∈ REBOOT_SCRIPT_PATHS ∧
        GuestCall.installScript p ∈ setupReboot b)) := by
  constructor
  · intro h
    rcases h with h | h <;> simp [setupReboot, h]
  · intro h
    have hlist : setupReboot b =
        [.installScript "/usr/bin/rstrnt-reboot",
         .makeExecutable "/usr/bin/rstrnt-reboot",
         .installScript "/usr/bin/rhts-reboot",
         .makeExecutable "/usr/bin/rhts-reboot"] := by
      simp [setupReboot, h, REBOOT_SCRIPT_PATHS]
    refine ⟨hlist, ?_, ?_⟩
    · intro p hp
      rw [hlist] at hp
      simp only [List.mem_cons, List.not_mem_nil, or_false] at hp
      rcases hp with h1 | h1 | h1 | h1
      · injection h1 with h1; subst h1; decide
      · simp at h1
      · injection h1 with h1; subst h1; decide
      · simp at h1
    · refine ⟨"/usr/bin/rstrnt-reboot", by decide, ?_⟩
      rw [hlist]
      simp

/-- Witness for C7: a local guest and a provisioned guest. -/
theorem reboot_script_setup_witness :
    setupReboot gRebootOnce = [] ∧
    setupReboot gHealthy =
      [.installScript "/usr/bin/rstrnt-reboot",
       .makeExecutable "/usr/bin/rstrnt-reboot",
       .installScript "/usr/bin/rhts-reboot",
       .makeExecutable "/usr/bin/rhts-reboot"] := by
  constructor
  · exact (reboot_script_setup gRebootOnce).1 (Or.inl rfl)
  · exact ((reboot_script_setup gHealthy).2 rfl).1

theorem get?_set_ne (l : List Test) (i j : Nat) (x : Test) (h : j ≠ i) :
    (l.set i x).get? j = l.get? j := by
  rw [List.get?_eq_getElem?, List.get?_eq_getElem?]
  exact List.getElem?_set_ne (fun e => h e.symm)

theorem get?_set_self (l : List Test) (i : Nat) (x : Test)
    (h : i < l.length) :
    (l.set i x).get? i = some x := by
  rw [List.get?_eq_getElem?]
  simp [List.getElem?_set_self, h]

/-- C8 counterexample: the same test run on two successive guests — the
environment the second guest's run observes contains the `REBOOT_COUNT`
entry left behind by the first guest's run, unlike the environment the
first run observed. -/
theorem env_shared_across_guests :
    execEnvs (outcomeState (go false [gHealthy, gHealthy] [tShell] 1)).trace
      = [[], [(REBOOT_VARIABLE, "0")]] ∧
    ([] : Env) ≠ [(REBOOT_VARIABLE, "0")] := by decide

/-- C8 (amended): a Test's environment is mutated only between attempts
of that same test by the reboot-aware loop, which touches only the
`REBOOT_COUNT` key, and other tests are unaffected; however the test
list — mutated environments included — is carried unchanged from one
guest's run into the next, so for the same test a later guest observes
the previous guest's `REBOOT_COUNT` mutation. -/
theorem env_mutation_confined (b : GuestBehavior) (i a : Nat)
    (st st2 : EngineState) (t : Test) (rest : List GuestBehavior)
    (fuel : Nat) (hget : st.tests.get? i = some t) :
    (∀ j, j ≠ i →
      (iterState (loopIter b i a st t)).tests.get? j = st.tests.get? j) ∧
    (∀ t2, (iterState (loopIter b i a st t)).tests.get? i = some t2 →
      ∀ k, k ≠ REBOOT_VARIABLE →
        envGet t2.environment k = envGet t.environment k) ∧
    (runGuest b fuel st = .finished st2 →
      runGuests (b :: rest) fuel st = runGuests rest fuel st2) := by
  have hi : i < st.tests.length := by
    by_contra hni
    rw [List.get?_eq_getElem?, List.getElem?_eq_none (by omega)] at hget
    cases hget
  have hcase : ∃ u : Test,
      (iterState (loopIter b i a st t)).tests = st.tests.set i u ∧
      (∀ k, k ≠ REBOOT_VARIABLE →
        envGet u.environment k = envGet t.environment k) := by
    by_cases hpull : b.pullOk i a = true
    · cases hmark : findRebootCount (capturedOutput (b.exec i a)) with
      | none =>
        refine ⟨finalizedTest b i a t, ?_, ?_⟩
        · rw [loopIter_no_marker b i a st t hpull hmark]
          rfl
        · intro k hk
          simp only [finalizedTest]
          exact envGet_envSet_ne _ _ _ _ hk
      | some n =>
        by_cases hreb : b.rebootOk i a = true
        · refine ⟨rebootedTest b i a t n, ?_, ?_⟩
          · rw [loopIter_marker b i a st t n hpull hmark hreb]
            rfl
          · intro k hk
            simp only [rebootedTest]
            exact envGet_envSet_ne _ _ _ _ hk
        · have hreb2 : b.rebootOk i a = false := by simpa using hreb
          refine ⟨executedTest b i a t, ?_, fun k hk => rfl⟩
          rw [loopIter_reboot_fails b i a st t n hpull hmark hreb2]
          rfl
    · have hpull2 : b.pullOk i a = false := by simpa using hpull
      refine ⟨executedTest b i a t, ?_, fun k hk => rfl⟩
      rw [loopIter_pull_fails b i a st t hpull2]
      rfl
  obtain ⟨u, hu, huk⟩ := hcase
  refine ⟨?_, ?_, ?_⟩
  · intro j hj
    rw [hu]
    exact get?_set_ne st.tests i j u hj
  · intro t2 ht2 k hk
    rw [hu, get?_set_self st.tests i u hi, Option.some_inj] at ht2
    subst ht2
    exact huk k hk
  · intro h
    simp [runGuests, h]

/-- Witness for C8 (amended) on a healthy guest and a one-test run. -/
theorem env_mutation_confined_witness :
    (iterState (loopIter gHealthy 0 0 stOne tShell)).tests.get? 1
      = stOne.tests.get? 1 ∧
    envGet (finalizedTest gHealthy 0 0 tShell).environment "PATH"
      = envGet tShell.environment "PATH" ∧
    runGuests [gHealthy, gHealthy] 1 stOne
      = runGuests [gHealthy] 1 (outcomeState (runGuest gHealthy 1 stOne)) := by
  obtain ⟨h1, h2, h3⟩ :=
    env_mutation_confined gHealthy 0 0 stOne
      (outcomeState (runGuest gHealthy 1 stOne)) tShell [gHealthy] 1 rfl
  exact ⟨h1 1 (by decide),
    h2 (finalizedTest gHealthy 0 0 tShell) (by decide) "PATH" (by decide),
    h3 (by decide)⟩

/-- C9: every execution attempt of a test, retries included, writes the
attempt's combined output — the empty string when nothing was captured —
to the same fixed per-test file inside the test's data directory,
overwriting whatever a previous attempt left there. -/
theorem output_file_overwritten (b : GuestBehavior) (i a : Nat) (t : Test)
    (fs : Fs) :
    (executeStep b i a t fs).fs
      = fsWrite fs (outputPath t) (capturedOutput (b.exec i a)) ∧
    fsRead (executeStep b i a t fs).fs (outputPath t)
      = some (capturedOutput (b.exec i a)) ∧
    (∀ rc, capturedOutput (.runError none rc) = "") := by
  refine ⟨rfl, ?_, fun rc => rfl⟩
  exact fsRead_fsWrite fs (outputPath t) (capturedOutput (b.exec i a))

/-- C10: for a beakerlib test the environment passed to the guest's
execute capability is a copy of the test's environment extended with
`BEAKERLIB_DIR` set to the test's data directory, while the test's own
mapping is left untouched and never acquires the key over any number of
loop iterations; any other framework's environment is passed as is. -/
theorem beakerlib_env_copy (b : GuestBehavior) (i a : Nat) (t : Test)
    (fs : Fs) (st : EngineState) :
    (t.framework = "beakerlib" →
      (executeStep b i a t fs).calls
        = [.executeTest t.name a
            (envSet t.environment "BEAKERLIB_DIR" (dataDirectory t))] ∧
      (executeStep b i a t fs).test.environment = t.environment) ∧
    (t.framework ≠ "beakerlib" →
      (executeStep b i a t fs).calls
        = [.executeTest t.name a t.environment] ∧
      (executeStep b i a t fs).test.environment = t.environment) ∧
    (∀ fuel i2 a2,
      (∀ t2, t2 ∈ st.tests → envGet t2.environment "BEAKERLIB_DIR" = none) →
      ∀ t2, t2 ∈ (outcomeState (runLoop b fuel i2 a2 st)).tests →
        envGet t2.environment "BEAKERLIB_DIR" = none) := by
  refine ⟨?_, ?_, ?_⟩
  · intro h
    exact ⟨by simp [executeStep, h], rfl⟩
  · intro h
    have hb : (t.framework == "beakerlib") = false := beq_eq_false_iff_ne.mpr h
    exact ⟨by simp [executeStep, hb], rfl⟩
  · intro fuel i2 a2 hinv t2 ht2
    exact runLoop_env_key_invariant b "BEAKERLIB_DIR" (by decide)
      fuel i2 a2 st hinv t2 ht2

/-- Witness for C10: a beakerlib test, a shell test, and a one-test run
that never plants `BEAKERLIB_DIR` into the test's own environment. -/
theorem beakerlib_env_copy_witness :
    (executeStep gHealthy 0 0 tBeaker []).calls
      = [.executeTest tBeaker.name 0
          (envSet tBeaker.environment "BEAKERLIB_DIR" (dataDirectory tBeaker))] ∧
    (executeStep gHealthy 0 0 tBeaker []).test.environment
      = tBeaker.environment ∧
    (executeStep gHealthy 0 0 tShell []).calls
      = [.executeTest tShell.name 0 tShell.environment] ∧
    envGet (finalizedTest gHealthy 0 0 tShell).environment "BEAKERLIB_DIR"
      = none := by
  obtain ⟨h1, -, -⟩ := beakerlib_env_copy gHealthy 0 0 tBeaker [] stOne
  obtain ⟨-, h5, h6⟩ := beakerlib_env_copy gHealthy 0 0 tShell [] stOne
  obtain ⟨h1a, h1b⟩ := h1 rfl
  refine ⟨h1a, h1b, (h5 (by decide)).1, ?_⟩
  exact h6 1 0 0 (by decide) (finalizedTest gHealthy 0 0 tShell) (by decide)

end TmtSpec
